import Mathlib

/-!
Verification of the animal-shelter dashboard script
(`ProjectTwoDashboard_FIXED_v3.py`) against its specification.

The script is Python glue code over pandas, Dash and an opaque backing-store
client.  We embed the parts the specification's testable properties talk
about:

* `try_construct` — speculative constructor probing;
* `resolve_reader` — read-method discovery on an opaque object;
* `to_dataframe`  — `pd.DataFrame(list(records))` plus `astype(str)` on `_id`;
* `build_query`   — the four filter controls to a Mongo-style filter dict;
* `update_table`  — the table callback, including its exception fallback;
* `update_chart`  — the chart callback with its `fillna("Unknown")` counting.

Python dicts are embedded as insertion-ordered association lists, scalar
values as the inductive `Value` (pandas' NaN / Python `None` both become
`Value.null`), exceptions as `Except`, and the external reader/constructor as
explicit function arguments of `Except` type.
-/

namespace Dashboard

/-- Scalar cell values: strings, integers, booleans, and a null placeholder
standing for both Python `None` and pandas `NaN`. -/
inductive Value where
  | str (s : String)
  | int (n : Int)
  | bool (b : Bool)
  | null
deriving DecidableEq, Repr

/-- A Python mapping (one database record / one table row): an
insertion-ordered association list from field name to scalar value. -/
abbrev Record := List (String × Value)

/-- Python dict lookup as pandas sees it when building a frame from a list of
mappings: a missing key yields the null placeholder (`NaN`). -/
def getVal (r : Record) (k : String) : Value :=
  ((r.find? (fun kv => kv.1 == k)).map Prod.snd).getD Value.null

/-- The keys of a record, in insertion order. -/
def dictKeys (r : Record) : List String :=
  r.map Prod.fst

/-!
## Query building (`build_query`, source lines 100-110)

A Mongo-style filter dict maps a field name to one of three constraint
shapes used by the script: an exact-match scalar, a case-insensitive regex
dict (`$regex` with `$options: "i"`), or a `$in` list.
-/

/-- The three constraint shapes `build_query` can place in the filter dict. -/
inductive Constraint where
  | eq (v : String)
  | regexI (pat : String)
  | inList (vs : List String)
deriving DecidableEq, Repr

/-- A filter dict: insertion-ordered field-to-constraint mapping. -/
abbrev Query := List (String × Constraint)

/-- Python truthiness of an optional string (`None` and `""` are falsy). -/
def truthyStr : Option String → Bool
  | none => false
  | some s => !(s == "")

/-- `build_query(animal_type, outcome_type, breed_text, sex_list)`:
inserts `animal_type` / `outcome_type` as exact matches when truthy and not
the sentinel `"All"`, a truthy `breed_text` as a case-insensitive regex
constraint, and a non-empty `sex_list` as a `$in` constraint, in that
insertion order. -/
def build_query (animal_type outcome_type breed_text : Option String)
    (sex_list : List String) : Query :=
  let q : Query := []
  let q := if truthyStr animal_type && !(animal_type.getD "" == "All") then
      q ++ [("animal_type", Constraint.eq (animal_type.getD ""))] else q
  let q := if truthyStr outcome_type && !(outcome_type.getD "" == "All") then
      q ++ [("outcome_type", Constraint.eq (outcome_type.getD ""))] else q
  let q := if truthyStr breed_text then
      q ++ [("breed", Constraint.regexI (breed_text.getD ""))] else q
  let q := if !sex_list.isEmpty then
      q ++ [("sex_upon_outcome", Constraint.inList sex_list)] else q
  q

/-- ASCII lower-casing of a character (Python `str.lower` restricted to the
ASCII values this data uses). -/
def lowerChar (c : Char) : Char :=
  if 'A' ≤ c ∧ c ≤ 'Z' then Char.ofNat (c.toNat + 32) else c

/-- Case-insensitive substring test on strings, via their character lists. -/
def containsCI (haystack pat : String) : Bool :=
  let h := haystack.data.map lowerChar
  let p := pat.data.map lowerChar
  (List.range (h.length + 1)).any (fun i => p.isPrefixOf (h.drop i))

/-- Modelled from the spec: how the backing store evaluates one constraint
against a record's field value.  The store itself (MongoDB behind the
resolved reader) is not part of this repository; the spec states that an
exact-match value must equal the field, that a `regexI` constraint is a
"case-insensitive substring pattern", and that a `$in` list means
"value is one of". -/
def matchesConstraint : Constraint → Value → Bool
  | Constraint.eq v, Value.str s => v == s
  | Constraint.regexI pat, Value.str s => containsCI s pat
  | Constraint.inList vs, Value.str s => vs.contains s
  | _, _ => false

/-!
## The pandas DataFrame fragment used by the script

A frame is a column list plus rows; each row is a record whose keys are
exactly the columns, in column order (`pd.DataFrame` of a list of mappings
produces this shape, and `to_dict("records")` returns exactly these rows).
-/

/-- The fragment of a pandas DataFrame the script uses: ordered columns and
rows, each row an association list keyed by the columns. -/
structure DataFrame where
  columns : List String
  rows : List Record
deriving DecidableEq, Repr

/-- Fold one mapping's keys into a first-appearance-ordered column list
(how `pd.DataFrame` unions the keys of a list of dicts). -/
def unionKeys (acc : List String) (r : Record) : List String :=
  r.foldl (fun a kv => if a.contains kv.1 then a else a ++ [kv.1]) acc

/-- Column set of a list of mappings, in order of first appearance. -/
def recordColumns (records : List Record) : List String :=
  records.foldl unionKeys []

/-- `pd.DataFrame(records)` for a list of mappings: columns are the
first-appearance union of the keys; a row holds, for every column, the
record's value or `NaN` when the key is absent. -/
def pdDataFrame (records : List Record) : DataFrame :=
  let cols := recordColumns records
  ⟨cols, records.map (fun r => cols.map (fun c => (c, getVal r c)))⟩

/-- Python `str()` of a scalar, as `.astype(str)` applies it cell-wise
(pandas renders `NaN` as the string `"nan"`). -/
def pyStr : Value → String
  | Value.str s => s
  | Value.int n => toString n
  | Value.bool b => if b then "True" else "False"
  | Value.null => "nan"

/-- `df[c] = df[c].astype(str)`: replace column `c`'s cells by their string
representation. -/
def astypeStrCol (df : DataFrame) (c : String) : DataFrame :=
  ⟨df.columns,
   df.rows.map (fun row =>
     row.map (fun kv => if kv.1 == c then (kv.1, Value.str (pyStr kv.2)) else kv))⟩

/-- `to_dataframe(records)` (source lines 91-98): build a frame from the
record list, then stringify the `_id` column when present.  The source wraps
the construction in `try/except`, but building a frame from an
already-materialised list of mappings cannot raise, so the except branch is
not reachable in this embedding. -/
def to_dataframe (records : List Record) : DataFrame :=
  let df := pdDataFrame records
  if df.columns.contains "_id" then astypeStrCol df "_id" else df

/-- The expected column list (source lines 122-125). -/
def EXPECTED_COLS : List String :=
  ["_id", "name", "animal_id", "animal_type", "breed", "color",
   "age_upon_outcome", "sex_upon_outcome", "outcome_type", "outcome_subtype",
   "date_of_birth"]

/-- `df[c] = None` for a column `c` not yet present: appends the column and
gives every row the null placeholder there.  (The script only executes this
assignment under `if c not in df.columns`.) -/
def addNoneColumn (df : DataFrame) (c : String) : DataFrame :=
  ⟨df.columns ++ [c], df.rows.map (fun row => row ++ [(c, Value.null)])⟩

/-- `for c in EXPECTED_COLS: if c not in df.columns: df[c] = None`
(source lines 178-180 and 126-128). -/
def addExpectedCols (df : DataFrame) : DataFrame :=
  EXPECTED_COLS.foldl
    (fun d c => if d.columns.contains c then d else addNoneColumn d c) df

/-!
## The table callback (`update_table`, source lines 171-181)

The resolved reader is an external callable; it enters the embedding as a
function returning `Except`: `.error` is the reader raising at call time.
`update_table` is total — the `try/except` catches every reader exception
and the subsequent column fix-up cannot raise — so no exception escapes.
-/

/-- The DataFrame `update_table` holds just before `to_dict("records")`:
reader result normalised by `to_dataframe`, or the expected-columns empty
frame when the reader raised, then expected columns synthesised. -/
def update_table_df (reader : Query → Except String (List Record))
    (animal outcome breed : Option String) (sex : Option (List String)) :
    DataFrame :=
  let q := build_query animal outcome breed (sex.getD [])
  let df := match reader q with
    | Except.ok records => to_dataframe records
    | Except.error _ => ⟨EXPECTED_COLS, []⟩
  addExpectedCols df

/-- `update_table`: the rows the callback returns (`df.to_dict("records")`). -/
def update_table (reader : Query → Except String (List Record))
    (animal outcome breed : Option String) (sex : Option (List String)) :
    List Record :=
  (update_table_df reader animal outcome breed sex).rows

/-!
## The chart callback (`update_chart`, source lines 187-195)
-/

/-- The bar figure the chart callback returns: the `(value, count)` rows fed
to `px.bar`, and the title.  The no-data branch returns a figure with no
data rows. -/
structure Figure where
  data : List (Value × Nat)
  title : String
deriving DecidableEq, Repr

/-- `fillna(repl)` on a single cell. -/
def fillna (repl : Value) (v : Value) : Value :=
  if v == Value.null then repl else v

/-- Stable insertion of one counted value into a count-descending list
(earlier elements win ties). -/
def insertDesc (x : Value × Nat) : List (Value × Nat) → List (Value × Nat)
  | [] => [x]
  | y :: ys => if y.2 ≤ x.2 then x :: y :: ys else y :: insertDesc x ys

/-- Stable sort by descending count. -/
def sortDesc : List (Value × Nat) → List (Value × Nat)
  | [] => []
  | x :: xs => insertDesc x (sortDesc xs)

/-- `Series.value_counts()`: drop nulls, then pair each distinct value (in
first-appearance order) with its number of occurrences, sorted by
descending count. -/
def value_counts (vs : List Value) : List (Value × Nat) :=
  let kept := vs.filter (fun v => !(v == Value.null))
  let distinct := kept.foldl (fun acc v => if acc.contains v then acc else acc ++ [v]) []
  sortDesc (distinct.map (fun v => (v, kept.count v)))

/-- `df[c]`: the column's cells, row by row. -/
def getCol (df : DataFrame) (c : String) : List Value :=
  df.rows.map (fun r => getVal r c)

/-- `pd.DataFrame.empty`: true when either axis has length zero. -/
def DataFrame.isEmptyDf (df : DataFrame) : Bool :=
  df.rows.isEmpty || df.columns.isEmpty

/-- `update_chart(rows)`: rebuild a frame from the table's current rows; on
an empty frame or a missing outcome-type column return the placeholder
"no data" figure; otherwise count outcome types with nulls bucketed as
"Unknown". -/
def update_chart (rows : List Record) : Figure :=
  let df := pdDataFrame rows
  if df.isEmptyDf || !(df.columns.contains "outcome_type") then
    ⟨[], "Outcome Type Distribution (no data)"⟩
  else
    ⟨value_counts ((getCol df "outcome_type").map (fillna (Value.str "Unknown"))),
     "Outcome Type Distribution"⟩

/-!
## Constructor probing (`try_construct`, source lines 35-53)

The shelter class's constructor is external: it enters the embedding as a
function from an argument list (credential strings) to `Except`, where
`.error` is the constructor raising.  `numParams` is the length of the
declared non-`self` parameter list obtained from `inspect.signature`.
-/

/-- The guarded loop over constructor argument shapes: return the first
instance whose construction does not raise, `none` if every shape raises. -/
def firstOk {α : Type} (ctor : List String → Except String α) :
    List (List String) → Option α
  | [] => none
  | args :: rest =>
    match ctor args with
    | Except.ok inst => some inst
    | Except.error _ => firstOk ctor rest

/-- `try_construct()`: try `()`, `(USERNAME,)`, `(USERNAME, PASSWORD)` in
order, prepending `()` once more when the declared parameter list is empty
and `()` is not already among the patterns; if every guarded attempt raises,
fall back to an unguarded no-argument construction whose error, if any,
propagates. -/
def try_construct {α : Type} (username password : String)
    (ctor : List String → Except String α) (numParams : Nat) : Except String α :=
  let patterns : List (List String) := [[], [username], [username, password]]
  let patterns := if numParams == 0 && !(patterns.contains []) then
      [] :: patterns else patterns
  match firstOk ctor patterns with
  | some inst => Except.ok inst
  | none => ctor []

/-!
## Read-method discovery (`resolve_reader`, source lines 60-86)

The opaque shelter object enters the embedding as the facts `resolve_reader`
probes: which attribute names are present, which of those are callable, and
whether a nested `collection` / `database` attribute exposes `find`.  The
wrappers the function can return are the four distinguishable shapes.
-/

/-- The candidate read-method names, in probe order (source lines 60-64). -/
def CANDIDATE_METHODS : List String :=
  ["read", "retrieve", "read_all", "readAll",
   "get", "get_all", "find", "fetch", "fetch_all",
   "read_records", "read_all_records", "get_records"]

/-- The wrapper `resolve_reader` can return: the one-argument lambda around a
named method, the zero-argument lambda of the dead fallback branch, or a
nested `collection.find` / `database.find` wrapper. -/
inductive Reader where
  | wrapQ (name : String)
  | wrapNoArg (name : String)
  | collectionFind
  | databaseFind
deriving DecidableEq, Repr

/-- The shape facts about the opaque shelter object that `resolve_reader`
probes: present attribute names, which are callable, and whether nested
`collection` / `database` attributes expose `find`. -/
structure PyObj where
  attrs : List String
  callables : List String
  collectionHasFind : Bool
  databaseHasFind : Bool
deriving DecidableEq, Repr

/-- Defining a Python lambda: this always succeeds — a `lambda` expression
never raises at definition time (its body runs only when called).  Modelled
as an `Except` operation so the `try/except TypeError` around it keeps its
source structure. -/
def defineLambda {α : Type} (f : α) : Except String α :=
  Except.ok f

/-- The `for name in CANDIDATE_METHODS` loop of `resolve_reader`: on the
first present callable candidate, try to define and return the one-argument
lambda; were that to raise `TypeError`, try the zero-argument lambda;
otherwise continue the scan. -/
def resolveLoop (o : PyObj) : List String → Option Reader
  | [] => none
  | n :: rest =>
    if o.attrs.contains n && o.callables.contains n then
      match defineLambda (Reader.wrapQ n) with
      | Except.ok r => some r
      | Except.error _ =>
        match defineLambda (Reader.wrapNoArg n) with
        | Except.ok r => some r
        | Except.error _ => resolveLoop o rest
    else resolveLoop o rest

/-- The fatal message raised when no read method is found (source line 84). -/
def READ_ERROR_MSG : String :=
  "Could not find a usable read method. Please check CRUD_Python_Module.py and confirm a method exists to retrieve records."

/-- `resolve_reader(obj)`: scan the candidate names; then fall back to
`collection.find` / `database.find`; otherwise raise `RuntimeError`. -/
def resolve_reader (o : PyObj) : Except String Reader :=
  match resolveLoop o CANDIDATE_METHODS with
  | some r => Except.ok r
  | none =>
    if o.attrs.contains "collection" && o.collectionHasFind then
      Except.ok Reader.collectionFind
    else if o.attrs.contains "database" && o.databaseHasFind then
      Except.ok Reader.databaseFind
    else Except.error READ_ERROR_MSG

/-- Rows of a well-formed frame are keyed exactly by the columns, in order. -/
def WF (df : DataFrame) : Prop :=
  ∀ r ∈ df.rows, dictKeys r = df.columns

/-- One iteration of the fix-up loop: `if c not in df.columns: df[c] = None`. -/
def addColStep (d : DataFrame) (c : String) : DataFrame :=
  if d.columns.contains c then d else addNoneColumn d c

/-- The reader of C2's witness: one record with only an extra column. -/
def w2Reader : Query → Except String (List Record) :=
  fun _ => Except.ok [[("extra", Value.int 1)]]

/-- The row C2's witness frame holds. -/
def w2Row : Record :=
  [("extra", Value.int 1), ("_id", Value.null), ("name", Value.null),
   ("animal_id", Value.null), ("animal_type", Value.null),
   ("breed", Value.null), ("color", Value.null),
   ("age_upon_outcome", Value.null), ("sex_upon_outcome", Value.null),
   ("outcome_type", Value.null), ("outcome_subtype", Value.null),
   ("date_of_birth", Value.null)]

/-- The rows of C6's witness: three adoptions and two null outcomes. -/
def w6Rows : List Record :=
  [[("outcome_type", Value.str "Adoption")],
   [("outcome_type", Value.str "Adoption")],
   [("outcome_type", Value.str "Adoption")],
   [("outcome_type", Value.null)],
   [("outcome_type", Value.null)]]


/-!
## Helper lemmas about records and frames
-/


theorem find?_key_isSome (r : Record) (c : String) (hc : c ∈ dictKeys r) :
    (r.find? (fun kv => kv.1 == c)).isSome := by
  rw [List.find?_isSome]
  rcases List.mem_map.mp hc with ⟨kv, hkv, heq⟩
  exact ⟨kv, hkv, by simp [heq]⟩

theorem find?_key_eq_none (r : Record) (c : String) (hc : c ∉ dictKeys r) :
    r.find? (fun kv => kv.1 == c) = none := by
  rw [List.find?_eq_none]
  intro kv hkv
  simp only [beq_iff_eq]
  exact fun h => hc (List.mem_map.mpr ⟨kv, hkv, h⟩)

theorem getVal_append_left (r1 r2 : Record) (c : String) (hc : c ∈ dictKeys r1) :
    getVal (r1 ++ r2) c = getVal r1 c := by
  obtain ⟨kv, hkv⟩ := Option.isSome_iff_exists.mp (find?_key_isSome r1 c hc)
  unfold getVal
  rw [List.find?_append, hkv]
  rfl

theorem getVal_append_right (r1 r2 : Record) (c : String) (hc : c ∉ dictKeys r1) :
    getVal (r1 ++ r2) c = getVal r2 c := by
  unfold getVal
  rw [List.find?_append, find?_key_eq_none r1 c hc]
  rfl

theorem dictKeys_pairRow (cols : List String) (r : Record) :
    dictKeys (cols.map (fun c => (c, getVal r c))) = cols := by
  induction cols with
  | nil => rfl
  | cons c0 rest ih => simpa [dictKeys] using ih

theorem getVal_pairRow (cols : List String) (r : Record) (c : String) :
    c ∈ cols → getVal (cols.map (fun x => (x, getVal r x))) c = getVal r c := by
  induction cols with
  | nil => intro hc; simp at hc
  | cons c0 rest ih =>
    intro hc
    by_cases hk : c0 = c
    · subst hk
      simp only [List.map_cons]
      unfold getVal
      rw [List.find?_cons_of_pos _ (by simp)]
      rfl
    · have hmem : c ∈ rest := by
        rcases List.mem_cons.mp hc with h | h
        · exact absurd h.symm hk
        · exact h
      simp only [List.map_cons]
      unfold getVal at ih ⊢
      rw [List.find?_cons_of_neg _ (by simp [hk])]
      exact ih hmem

theorem WF_pdDataFrame (records : List Record) : WF (pdDataFrame records) := by
  intro r hr
  simp only [pdDataFrame] at hr ⊢
  rcases List.mem_map.mp hr with ⟨r0, _, rfl⟩
  exact dictKeys_pairRow _ r0

theorem dictKeys_map_astype (row : Record) (c : String) :
    dictKeys (row.map
      (fun kv => if kv.1 == c then (kv.1, Value.str (pyStr kv.2)) else kv)) =
    dictKeys row := by
  simp only [dictKeys, List.map_map]
  congr 1
  funext kv
  simp only [Function.comp]
  split <;> rfl

theorem WF_astypeStrCol (df : DataFrame) (c : String) (h : WF df) :
    WF (astypeStrCol df c) := by
  intro r hr
  simp only [astypeStrCol] at hr ⊢
  rcases List.mem_map.mp hr with ⟨r0, hr0, rfl⟩
  rw [dictKeys_map_astype]
  exact h r0 hr0

theorem to_dataframe_columns (records : List Record) :
    (to_dataframe records).columns = recordColumns records := by
  simp only [to_dataframe]
  split <;> rfl

theorem WF_to_dataframe (records : List Record) : WF (to_dataframe records) := by
  simp only [to_dataframe]
  split
  · exact WF_astypeStrCol _ _ (WF_pdDataFrame records)
  · exact WF_pdDataFrame records

theorem WF_addNoneColumn (df : DataFrame) (c : String) (h : WF df) :
    WF (addNoneColumn df c) := by
  intro r hr
  simp only [addNoneColumn] at hr ⊢
  rcases List.mem_map.mp hr with ⟨r0, hr0, rfl⟩
  have hk := h r0 hr0
  simp only [dictKeys] at hk ⊢
  rw [List.map_append, hk]
  rfl

/-!
### The expected-columns fix-up loop
-/


theorem addExpectedCols_eq_foldl (df : DataFrame) :
    addExpectedCols df = EXPECTED_COLS.foldl addColStep df := rfl

theorem WF_addColStep (df : DataFrame) (c : String) (h : WF df) :
    WF (addColStep df c) := by
  unfold addColStep
  split
  · exact h
  · exact WF_addNoneColumn df c h

theorem foldl_addColStep_cols_mono (cols : List String) (df : DataFrame)
    (c : String) (h : c ∈ df.columns) :
    c ∈ (cols.foldl addColStep df).columns := by
  induction cols generalizing df with
  | nil => exact h
  | cons c0 rest ih =>
    refine ih (addColStep df c0) ?_
    unfold addColStep
    split
    · exact h
    · simp [addNoneColumn, h]

theorem foldl_addColStep_cols_added (cols : List String) (df : DataFrame)
    (c : String) (h : c ∈ cols) :
    c ∈ (cols.foldl addColStep df).columns := by
  induction cols generalizing df with
  | nil => simp at h
  | cons c0 rest ih =>
    rcases List.mem_cons.mp h with h1 | h1
    · subst h1
      refine foldl_addColStep_cols_mono rest (addColStep df c) c ?_
      unfold addColStep
      split
      · simpa using (by assumption : df.columns.contains c = true)
      · simp [addNoneColumn]
    · exact ih (addColStep df c0) h1

theorem foldl_addColStep_null_keep (cols : List String) (df : DataFrame)
    (c : String) (hwf : WF df) (hmem : c ∈ df.columns)
    (hnull : ∀ row ∈ df.rows, getVal row c = Value.null) :
    ∀ row ∈ (cols.foldl addColStep df).rows, getVal row c = Value.null := by
  induction cols generalizing df with
  | nil => exact hnull
  | cons c0 rest ih =>
    refine ih (addColStep df c0) (WF_addColStep df c0 hwf) ?_ ?_
    · unfold addColStep
      split
      · exact hmem
      · simp [addNoneColumn, hmem]
    · unfold addColStep
      split
      · exact hnull
      · intro row hrow
        simp only [addNoneColumn] at hrow
        rcases List.mem_map.mp hrow with ⟨r0, hr0, rfl⟩
        rw [getVal_append_left r0 _ c (by rw [hwf r0 hr0]; exact hmem)]
        exact hnull r0 hr0

theorem foldl_addColStep_null_new (cols : List String) (df : DataFrame)
    (c : String) (hwf : WF df) (habsent : c ∉ df.columns) (hmem : c ∈ cols) :
    ∀ row ∈ (cols.foldl addColStep df).rows, getVal row c = Value.null := by
  induction cols generalizing df with
  | nil => simp at hmem
  | cons c0 rest ih =>
    by_cases hc : c0 = c
    · subst hc
      have hstep : addColStep df c0 = addNoneColumn df c0 := by
        unfold addColStep
        rw [if_neg (by simp [habsent])]
      rw [List.foldl_cons, hstep]
      refine foldl_addColStep_null_keep rest (addNoneColumn df c0) c0
        (WF_addNoneColumn df c0 hwf) (by simp [addNoneColumn]) ?_
      intro row hrow
      rcases List.mem_map.mp hrow with ⟨r0, hr0, rfl⟩
      rw [getVal_append_right r0 _ c0 (by rw [hwf r0 hr0]; exact habsent)]
      simp [getVal, List.find?]
    · have hmem1 : c ∈ rest := by
        rcases List.mem_cons.mp hmem with h | h
        · exact absurd h.symm hc
        · exact h
      refine ih (addColStep df c0) (WF_addColStep df c0 hwf) ?_ hmem1
      unfold addColStep
      split
      · exact habsent
      · simp only [addNoneColumn, List.mem_append, List.mem_singleton]
        rintro (h | h)
        · exact habsent h
        · exact hc h.symm

/-!
### Keys of the source records end up in the column union
-/

theorem unionKeys_mono (r : Record) : ∀ (acc : List String) (k : String),
    k ∈ acc → k ∈ unionKeys acc r := by
  induction r with
  | nil => intro acc k h; exact h
  | cons kv rest ih =>
    intro acc k h
    show k ∈ unionKeys (if acc.contains kv.1 then acc else acc ++ [kv.1]) rest
    refine ih _ k ?_
    split
    · exact h
    · exact List.mem_append.mpr (Or.inl h)

theorem unionKeys_in (r : Record) : ∀ (acc : List String) (k : String),
    k ∈ dictKeys r → k ∈ unionKeys acc r := by
  induction r with
  | nil => intro acc k h; simp [dictKeys] at h
  | cons kv rest ih =>
    intro acc k h
    have h2 : k = kv.1 ∨ k ∈ dictKeys rest := by
      simpa [dictKeys] using h
    show k ∈ unionKeys (if acc.contains kv.1 then acc else acc ++ [kv.1]) rest
    rcases h2 with h1 | h1
    · refine unionKeys_mono rest _ k ?_
      by_cases hcont : acc.contains kv.1 = true
      · rw [if_pos hcont]
        rw [h1]
        simpa using hcont
      · rw [if_neg hcont]
        simp [h1]
    · exact ih _ k h1

theorem recordColumns_mono (records : List Record) : ∀ (acc : List String)
    (k : String), k ∈ acc → k ∈ records.foldl unionKeys acc := by
  induction records with
  | nil => intro acc k h; exact h
  | cons r rest ih =>
    intro acc k h
    exact ih _ k (unionKeys_mono r acc k h)

theorem recordColumns_in (records : List Record) : ∀ (acc : List String)
    (r : Record) (k : String), r ∈ records → k ∈ dictKeys r →
    k ∈ records.foldl unionKeys acc := by
  induction records with
  | nil => intro acc r k hr _; simp at hr
  | cons r0 rest ih =>
    intro acc r k hr hk
    show k ∈ rest.foldl unionKeys (unionKeys acc r0)
    rcases List.mem_cons.mp hr with h | h
    · subst h
      exact recordColumns_mono rest _ k (unionKeys_in r acc k hk)
    · exact ih _ r k h hk

/-!
## Theorems
-/

/-- C3: a category field appears in the built filter iff its input is truthy
and not the sentinel `"All"`, in which case the constraint is exact match on
the given value; with both categories `"All"` and breed/sex empty the filter
is empty. -/
theorem build_query_category (a o b : Option String) (s : List String) :
    ((∃ c, ("animal_type", c) ∈ build_query a o b s) ↔
       truthyStr a = true ∧ a.getD "" ≠ "All")
  ∧ (∀ c, ("animal_type", c) ∈ build_query a o b s → c = Constraint.eq (a.getD ""))
  ∧ ((∃ c, ("outcome_type", c) ∈ build_query a o b s) ↔
       truthyStr o = true ∧ o.getD "" ≠ "All")
  ∧ (∀ c, ("outcome_type", c) ∈ build_query a o b s → c = Constraint.eq (o.getD ""))
  ∧ build_query (some "All") (some "All") none [] = []
  ∧ build_query (some "All") (some "All") (some "") [] = [] := by
  refine ⟨?_, ?_, ?_, ?_, by decide, by decide⟩ <;>
  · simp only [build_query]
    split_ifs with h1 h2 h3 h4 <;>
      simp_all [List.mem_append, Bool.and_eq_true, Bool.not_eq_true', beq_iff_eq]

/-- Witness for C3 at the all-default inputs: the filter is empty. -/
theorem build_query_category_witness :
    build_query (some "All") (some "All") none [] = [] :=
  (build_query_category (some "All") (some "All") none []).2.2.2.2.1

/-- C4: a truthy breed input becomes a case-insensitive pattern constraint on
the breed field, and under the case-insensitive substring semantics the
pattern `"shepherd"` matches the breed `"Shepherd"`. -/
theorem build_query_breed (a o b : Option String) (s : List String)
    (hb : truthyStr b = true) :
    ("breed", Constraint.regexI (b.getD "")) ∈ build_query a o b s
  ∧ matchesConstraint (Constraint.regexI "shepherd") (Value.str "Shepherd") = true := by
  refine ⟨?_, by decide⟩
  simp only [build_query]
  split_ifs <;> simp_all [List.mem_append]

/-- Witness for C4 at the spec's own example. -/
theorem build_query_breed_witness :
    ("breed", Constraint.regexI "shepherd") ∈ build_query none none (some "shepherd") []
  ∧ matchesConstraint (Constraint.regexI "shepherd") (Value.str "Shepherd") = true :=
  build_query_breed none none (some "shepherd") [] (by decide)

/-- C7: `try_construct` tries `()`, `(USERNAME,)`, `(USERNAME, PASSWORD)` in
that order and returns the first success; the declared-parameter count does
not change the attempted shapes (the no-argument shape is already first, so
the guarded prepend never fires); when every guarded shape raises, the
result is that of the final unguarded no-argument construction, whose error
propagates. -/
theorem try_construct_spec {α : Type} (username password : String)
    (ctor : List String → Except String α) (numParams : Nat) :
    try_construct username password ctor numParams =
      (match ctor [] with
       | Except.ok inst => Except.ok inst
       | Except.error _ =>
         match ctor [username] with
         | Except.ok inst => Except.ok inst
         | Except.error _ =>
           match ctor [username, password] with
           | Except.ok inst => Except.ok inst
           | Except.error _ => ctor []) := by
  simp only [try_construct]
  rcases h0 : ctor [] with i0 | e0 <;>
    rcases h1 : ctor [username] with i1 | e1 <;>
    rcases h2 : ctor [username, password] with i2 | e2 <;>
    simp [firstOk, h0, h1, h2]

/-- Helper: the candidate-name loop returns the one-argument wrapper around
the first present callable candidate. -/
theorem resolveLoop_eq_find (o : PyObj) (ns : List String) :
    resolveLoop o ns =
      (ns.find? (fun n => o.attrs.contains n && o.callables.contains n)).map
        Reader.wrapQ := by
  induction ns with
  | nil => rfl
  | cons n rest ih =>
    rw [resolveLoop, List.find?]
    cases hcond : (o.attrs.contains n && o.callables.contains n)
    · rw [if_neg (by simp [hcond]), ih]
    · rw [if_pos (by simp [hcond])]
      simp only [hcond, defineLambda, Option.map_some']

/-- Helper: full characterisation of `resolve_reader`. -/
theorem resolve_reader_eq (o : PyObj) :
    resolve_reader o =
      match CANDIDATE_METHODS.find?
          (fun n => o.attrs.contains n && o.callables.contains n) with
      | some n => Except.ok (Reader.wrapQ n)
      | none =>
        if o.attrs.contains "collection" && o.collectionHasFind then
          Except.ok Reader.collectionFind
        else if o.attrs.contains "database" && o.databaseHasFind then
          Except.ok Reader.databaseFind
        else Except.error READ_ERROR_MSG := by
  simp only [resolve_reader, resolveLoop_eq_find]
  rcases CANDIDATE_METHODS.find?
    (fun n => o.attrs.contains n && o.callables.contains n) with _ | n <;> simp

/-- C8: `resolve_reader` returns the single-argument wrapper around the first
candidate name that is present and callable; with no such candidate it falls
back to `collection.find`, then `database.find`, and otherwise raises the
descriptive `RuntimeError`. -/
theorem resolve_reader_spec (o : PyObj) :
    resolve_reader o =
      match CANDIDATE_METHODS.find?
          (fun n => o.attrs.contains n && o.callables.contains n) with
      | some n => Except.ok (Reader.wrapQ n)
      | none =>
        if o.attrs.contains "collection" && o.collectionHasFind then
          Except.ok Reader.collectionFind
        else if o.attrs.contains "database" && o.databaseHasFind then
          Except.ok Reader.databaseFind
        else Except.error READ_ERROR_MSG :=
  resolve_reader_eq o

/-- C9: the `except TypeError` fallback of the candidate loop is dead code —
`resolve_reader` never returns the zero-argument wrapper, and whenever some
candidate is present and callable it returns the single-argument wrapper,
with no arity check on the chosen method. -/
theorem resolve_reader_dead_branch (o : PyObj) :
    (∀ n, resolve_reader o ≠ Except.ok (Reader.wrapNoArg n))
  ∧ ((∃ n, n ∈ CANDIDATE_METHODS ∧ o.attrs.contains n = true ∧
        o.callables.contains n = true) →
      ∃ n, resolve_reader o = Except.ok (Reader.wrapQ n)) := by
  constructor
  · intro n hn
    rw [resolve_reader_eq] at hn
    rcases hfind : CANDIDATE_METHODS.find?
        (fun m => o.attrs.contains m && o.callables.contains m) with _ | m <;>
      rw [hfind] at hn
    · split_ifs at hn <;> simp_all
    · simp_all
  · rintro ⟨n, hmem, ha, hc⟩
    rcases hfind : CANDIDATE_METHODS.find?
        (fun m => o.attrs.contains m && o.callables.contains m) with _ | m
    · exact absurd (by rw [ha, hc]; rfl :
          (o.attrs.contains n && o.callables.contains n) = true)
        (List.find?_eq_none.mp hfind n hmem)
    · exact ⟨m, by rw [resolve_reader_eq, hfind]⟩

/-- Witness for C9 at an object exposing a callable `read`. -/
theorem resolve_reader_dead_branch_witness :
    ∃ n, resolve_reader ⟨["read"], ["read"], false, false⟩ =
      Except.ok (Reader.wrapQ n) :=
  (resolve_reader_dead_branch ⟨["read"], ["read"], false, false⟩).2
    ⟨"read", by decide, by decide, by decide⟩

/-- Filling nulls with the `"Unknown"` bucket never leaves a null. -/
theorem fillna_ne_null (v : Value) :
    fillna (Value.str "Unknown") v ≠ Value.null := by
  unfold fillna
  split
  · simp
  · rename_i h
    simpa using h

theorem mem_insertDesc (x y : Value × Nat) (l : List (Value × Nat)) :
    y ∈ insertDesc x l ↔ y = x ∨ y ∈ l := by
  induction l with
  | nil => simp [insertDesc]
  | cons z rest ih =>
    unfold insertDesc
    split
    · simp only [List.mem_cons]
    · simp only [List.mem_cons, ih]
      tauto

theorem mem_sortDesc (y : Value × Nat) (l : List (Value × Nat)) :
    y ∈ sortDesc l ↔ y ∈ l := by
  induction l with
  | nil => simp [sortDesc]
  | cons x rest ih =>
    simp [sortDesc, mem_insertDesc, ih]

theorem mem_dedupFold (vs : List Value) : ∀ (acc : List Value) (v : Value),
    (v ∈ vs.foldl
      (fun acc v => if acc.contains v then acc else acc ++ [v]) acc) ↔
    (v ∈ acc ∨ v ∈ vs) := by
  induction vs with
  | nil => intro acc v; simp
  | cons v0 rest ih =>
    intro acc v
    rw [List.foldl_cons, ih]
    by_cases h : acc.contains v0 = true
    · rw [if_pos h]
      constructor
      · rintro (h1 | h1)
        · exact Or.inl h1
        · exact Or.inr (List.mem_cons.mpr (Or.inr h1))
      · rintro (h1 | h1)
        · exact Or.inl h1
        · rcases List.mem_cons.mp h1 with h2 | h2
          · subst h2
            exact Or.inl (by simpa using h)
          · exact Or.inr h2
    · rw [if_neg h]
      simp only [List.mem_append, List.mem_singleton, List.mem_cons]
      tauto

theorem value_counts_mem (vs : List Value) (hnull : Value.null ∉ vs)
    (v : Value) (n : Nat) :
    (v, n) ∈ value_counts vs ↔ (v ∈ vs ∧ n = vs.count v) := by
  have hkept : vs.filter (fun v => !(v == Value.null)) = vs := by
    refine List.filter_eq_self.mpr ?_
    intro a ha
    simp only [Bool.not_eq_true', beq_eq_false_iff_ne, ne_eq]
    exact fun h => hnull (h ▸ ha)
  simp only [value_counts, hkept]
  rw [mem_sortDesc, List.mem_map]
  constructor
  · rintro ⟨u, hu, huv⟩
    obtain ⟨rfl, rfl⟩ : u = v ∧ vs.count u = n := by
      simpa [Prod.ext_iff] using huv
    exact ⟨(mem_dedupFold vs [] u).mp hu |>.resolve_left (by simp), rfl⟩
  · rintro ⟨hv, rfl⟩
    exact ⟨v, (mem_dedupFold vs [] v).mpr (Or.inr hv), rfl⟩

/-- C6: on non-empty rows with an outcome-type column, the chart's data
carries exactly the counts of the rows' outcome types after nulls are
replaced by the `"Unknown"` bucket. -/
theorem update_chart_counts (rows : List Record) (h1 : rows ≠ [])
    (h2 : "outcome_type" ∈ (pdDataFrame rows).columns) (v : Value) (n : Nat) :
    (v, n) ∈ (update_chart rows).data ↔
      (v ∈ rows.map (fun r => fillna (Value.str "Unknown")
          (getVal r "outcome_type"))
       ∧ n = (rows.map (fun r => fillna (Value.str "Unknown")
          (getVal r "outcome_type"))).count v) := by
  have hcontains : (pdDataFrame rows).columns.contains "outcome_type" = true := by
    simpa using h2
  have hre : (pdDataFrame rows).rows.isEmpty = false := by
    rcases rows with _ | ⟨r0, rest⟩
    · exact absurd rfl h1
    · rfl
  have hce : (pdDataFrame rows).columns.isEmpty = false := by
    rcases hc : (pdDataFrame rows).columns with _ | ⟨c0, cs⟩
    · rw [hc] at h2
      simp at h2
    · rfl
  have hcond : ((pdDataFrame rows).isEmptyDf ||
      !((pdDataFrame rows).columns.contains "outcome_type")) = false := by
    unfold DataFrame.isEmptyDf
    rw [hre, hce, hcontains]
    rfl
  have hchart : update_chart rows =
      ⟨value_counts ((getCol (pdDataFrame rows) "outcome_type").map
          (fillna (Value.str "Unknown"))),
       "Outcome Type Distribution"⟩ := by
    simp only [update_chart]
    rw [if_neg (by rw [hcond]; simp)]
  have hcol : getCol (pdDataFrame rows) "outcome_type" =
      rows.map (fun r => getVal r "outcome_type") := by
    simp only [getCol, pdDataFrame, List.map_map]
    refine List.map_congr_left ?_
    intro r _
    simp only [Function.comp]
    exact getVal_pairRow _ r _ h2
  have hn : Value.null ∉ rows.map
      (fun r => fillna (Value.str "Unknown") (getVal r "outcome_type")) := by
    intro hmem
    rcases List.mem_map.mp hmem with ⟨r, _, heq⟩
    exact fillna_ne_null _ heq
  rw [hchart, hcol, List.map_map]
  simpa [Function.comp] using value_counts_mem
    (rows.map (fun r => fillna (Value.str "Unknown") (getVal r "outcome_type")))
    hn v n


/-- Witness for C6 at the spec's example: counts are Adoption 3, Unknown 2. -/
theorem update_chart_counts_witness :
    (Value.str "Adoption", 3) ∈ (update_chart w6Rows).data
  ∧ (Value.str "Unknown", 2) ∈ (update_chart w6Rows).data :=
  ⟨(update_chart_counts w6Rows (by decide) (by decide)
      (Value.str "Adoption") 3).mpr (by decide),
   (update_chart_counts w6Rows (by decide) (by decide)
      (Value.str "Unknown") 2).mpr (by decide)⟩

/-- C5: on an empty row set, or on rows lacking an outcome-type column,
`update_chart` returns the placeholder "no data" figure (and, being a total
function of the rows, raises nothing). -/
theorem update_chart_no_data (rows : List Record)
    (h : rows = [] ∨ "outcome_type" ∉ (pdDataFrame rows).columns) :
    update_chart rows = ⟨[], "Outcome Type Distribution (no data)"⟩ := by
  rcases h with h | h
  · subst h; rfl
  · simp [update_chart, DataFrame.isEmptyDf, h]

/-- Witness for C5 at the empty row set. -/
theorem update_chart_no_data_witness :
    update_chart [] = ⟨[], "Outcome Type Distribution (no data)"⟩ :=
  update_chart_no_data [] (Or.inl rfl)

/-- C1: when the resolved reader raises on the built query, `update_table`
returns the records of the empty frame whose column set is exactly
`EXPECTED_COLS` — that is, the empty record list — and, the callback being a
total function of the reader's outcome, no exception escapes. -/
theorem update_table_reader_raises (reader : Query → Except String (List Record))
    (animal outcome breed : Option String) (sex : Option (List String)) (e : String)
    (h : reader (build_query animal outcome breed (sex.getD [])) = Except.error e) :
    update_table_df reader animal outcome breed sex = ⟨EXPECTED_COLS, []⟩
  ∧ update_table reader animal outcome breed sex = [] := by
  have hdf : update_table_df reader animal outcome breed sex = ⟨EXPECTED_COLS, []⟩ := by
    simp only [update_table_df, h]
    decide
  exact ⟨hdf, by simp [update_table, hdf]⟩

/-- C2: on a successful read, the normalised frame contains every expected
column, preserves every column of the source mappings, and fills the
expected columns absent from the source with the null placeholder in every
row. -/
theorem update_table_normalizes (reader : Query → Except String (List Record))
    (animal outcome breed : Option String) (sex : Option (List String))
    (records : List Record)
    (h : reader (build_query animal outcome breed (sex.getD [])) =
      Except.ok records) :
    (∀ c ∈ EXPECTED_COLS,
       c ∈ (update_table_df reader animal outcome breed sex).columns)
  ∧ (∀ r ∈ records, ∀ k ∈ dictKeys r,
       k ∈ (update_table_df reader animal outcome breed sex).columns)
  ∧ (∀ c ∈ EXPECTED_COLS, c ∉ recordColumns records →
       ∀ row ∈ (update_table_df reader animal outcome breed sex).rows,
         getVal row c = Value.null) := by
  have hdf : update_table_df reader animal outcome breed sex =
      addExpectedCols (to_dataframe records) := by
    simp only [update_table_df, h]
  rw [hdf, addExpectedCols_eq_foldl]
  refine ⟨?_, ?_, ?_⟩
  · intro c hc
    exact foldl_addColStep_cols_added EXPECTED_COLS _ c hc
  · intro r hr k hk
    refine foldl_addColStep_cols_mono EXPECTED_COLS _ k ?_
    rw [to_dataframe_columns]
    exact recordColumns_in records [] r k hr hk
  · intro c hc habs
    exact foldl_addColStep_null_new EXPECTED_COLS _ c (WF_to_dataframe records)
      (by rw [to_dataframe_columns]; exact habs) hc



/-- Witness for C2: the expected column `breed` is synthesised as null, and
the extra source column `extra` is preserved. -/
theorem update_table_normalizes_witness :
    "breed" ∈ (update_table_df w2Reader none none none none).columns
  ∧ "extra" ∈ (update_table_df w2Reader none none none none).columns
  ∧ getVal w2Row "breed" = Value.null :=
  ⟨(update_table_normalizes w2Reader none none none none
      [[("extra", Value.int 1)]] rfl).1 "breed" (by decide),
   (update_table_normalizes w2Reader none none none none
      [[("extra", Value.int 1)]] rfl).2.1 [("extra", Value.int 1)] (by decide)
      "extra" (by decide),
   (update_table_normalizes w2Reader none none none none
      [[("extra", Value.int 1)]] rfl).2.2 "breed" (by decide) (by decide)
      w2Row (by decide)⟩

/-- Stringifying the `_id` column leaves a string in every row that has the
key. -/
theorem getVal_map_astype (row : Record) (c : String) :
    c ∈ dictKeys row →
    ∃ s, getVal (row.map
      (fun kv => if kv.1 == c then (kv.1, Value.str (pyStr kv.2)) else kv)) c =
      Value.str s := by
  induction row with
  | nil => intro h; simp [dictKeys] at h
  | cons kv rest ih =>
    intro h
    by_cases hk : (kv.1 == c) = true
    · refine ⟨pyStr kv.2, ?_⟩
      simp only [List.map_cons]
      rw [if_pos hk]
      unfold getVal
      rw [List.find?_cons_of_pos _ (by simpa using hk)]
      rfl
    · have hmem : c ∈ dictKeys rest := by
        have h2 : c = kv.1 ∨ c ∈ dictKeys rest := by simpa [dictKeys] using h
        rcases h2 with h1 | h1
        · exact absurd (by simp [h1] : (kv.1 == c) = true) hk
        · exact h1
      obtain ⟨s, hs⟩ := ih hmem
      refine ⟨s, ?_⟩
      simp only [List.map_cons]
      rw [if_neg hk]
      unfold getVal at hs ⊢
      rw [List.find?_cons_of_neg _ (by simpa using hk)]
      exact hs

/-- C10: whenever the produced frame has an `_id` column, every row holds a
string there — `to_dataframe` stringifies the identifier regardless of the
scalar type the backing store returned. -/
theorem to_dataframe_id_str (records : List Record)
    (h : "_id" ∈ (to_dataframe records).columns) :
    ∀ row ∈ (to_dataframe records).rows, ∃ s, getVal row "_id" = Value.str s := by
  intro row hrow
  have hmemcols : "_id" ∈ (pdDataFrame records).columns := by
    rw [to_dataframe_columns] at h
    exact h
  have hcont : (pdDataFrame records).columns.contains "_id" = true := by
    simpa using hmemcols
  have hdf : to_dataframe records = astypeStrCol (pdDataFrame records) "_id" := by
    simp only [to_dataframe]
    rw [if_pos hcont]
  rw [hdf] at hrow
  simp only [astypeStrCol] at hrow
  rcases List.mem_map.mp hrow with ⟨r0, hr0, rfl⟩
  refine getVal_map_astype r0 "_id" ?_
  rw [WF_pdDataFrame records r0 hr0]
  exact hmemcols

/-- Witness for C10: an integer `_id` becomes the string `"5"`. -/
theorem to_dataframe_id_str_witness :
    ∃ s, getVal [("_id", Value.str "5")] "_id" = Value.str s :=
  to_dataframe_id_str [[("_id", Value.int 5)]] (by decide)
    [("_id", Value.str "5")] (by decide)

/-- Witness for C1 at an always-raising reader. -/
theorem update_table_reader_raises_witness :
    update_table_df (fun _ => Except.error "boom") none none none none =
      ⟨EXPECTED_COLS, []⟩
  ∧ update_table (fun _ => Except.error "boom") none none none none = [] :=
  update_table_reader_raises (fun _ => Except.error "boom") none none none none
    "boom" rfl

end Dashboard
